import Mathlib

/-!
Shallow embedding of `src/main.rs` of the todo_list repository: the
selectable-list cursor type (`StatefulList`), the input-mode state machine
driven by `run_app`'s key-dispatch match, and the event-loop poll-timeout
computation. Fallible Rust operations (panics from `Option::unwrap`,
out-of-range indexing, and debug-build integer underflow) are embedded as
`Option`-returning functions where `none` means the panic.
-/

/-- Checked natural subtraction: models Rust subtractions that can fail,
namely `Duration::checked_sub` (returns `Option`) and overflow-checked
`usize` subtraction, which panics on underflow in debug builds. -/
def checked_sub (a b : Nat) : Option Nat :=
  if b ≤ a then some (a - b) else none

/-- Model of tui's `ListState`, restricted to its cursor field `selected`.
The scroll `offset` field is part of the excluded rendering engine and is
never read by the embedded core. -/
structure ListState where
  selected : Option Nat
deriving DecidableEq, Repr

/-- `ListState::default()`: no cursor selected. -/
def ListState.default : ListState := ⟨none⟩

/-- `ListState::select`. -/
def ListState.select (_s : ListState) (idx : Option Nat) : ListState := ⟨idx⟩

/-- `StatefulList<T>` from main.rs: a cursor state plus an item vector. -/
structure StatefulList (α : Type) where
  list_state : ListState
  items : List α
deriving DecidableEq, Repr

/-- `StatefulList::with_items`: constructs a list with no cursor set. -/
def StatefulList.with_items {α : Type} (items : List α) : StatefulList α :=
  ⟨ListState.default, items⟩

/-- `StatefulList::next` (main.rs lines 34-47). In the `Some i` branch the
Rust code computes `self.items.len() - 1`; on an empty vector that
subtraction underflows, which is the `none` outcome here. -/
def StatefulList.next {α : Type} (s : StatefulList α) : Option (StatefulList α) :=
  match s.list_state.selected with
  | some i =>
      match checked_sub s.items.length 1 with
      | some last =>
          some { s with list_state := s.list_state.select (some (if last ≤ i then 0 else i + 1)) }
      | none => none
  | none => some { s with list_state := s.list_state.select (some 0) }

/-- `StatefulList::previous` (main.rs lines 49-62). The wrap computation
`self.items.len() - 1` is evaluated only in the `i == 0` branch; on an
empty vector it underflows, which is the `none` outcome here. -/
def StatefulList.previous {α : Type} (s : StatefulList α) : Option (StatefulList α) :=
  match s.list_state.selected with
  | some i =>
      if i = 0 then
        match checked_sub s.items.length 1 with
        | some last => some { s with list_state := s.list_state.select (some last) }
        | none => none
      else some { s with list_state := s.list_state.select (some (i - 1)) }
  | none => some { s with list_state := s.list_state.select (some 0) }

/-- `StatefulList::unselect` (main.rs lines 64-66). -/
def StatefulList.unselect {α : Type} (s : StatefulList α) : StatefulList α :=
  { s with list_state := s.list_state.select none }

/-- The `Mode` enum of main.rs. -/
inductive Mode
  | Add
  | Delete
  | Update
  | Normal
deriving DecidableEq, Repr

/-- The key codes distinguished by `run_app`'s match arms; `Other` stands
for every remaining crossterm key code, all of which fall into the
wildcard arms. -/
inductive KeyCode
  | Char (c : Char)
  | Backspace
  | Enter
  | Left
  | Down
  | Up
  | Other
deriving DecidableEq, Repr

/-- `AppState` of main.rs: the stateful list (whose items are the borrowed
strings, embedded by value) and the current mode. -/
structure AppState where
  list : StatefulList String
  mode : Mode
deriving DecidableEq, Repr

/-- `AppState::new`: seeds the list and starts in Normal mode. -/
def AppState.new (list_vector : List String) : AppState :=
  ⟨StatefulList.with_items list_vector, Mode.Normal⟩

/-- Outcome of dispatching one key inside `run_app`'s loop: either the
loop continues with the mutated state, or `return Ok(())` was taken
(the quit request) leaving the state as it was. -/
inductive StepResult
  | Continue (app : AppState)
  | Quit (app : AppState)
deriving DecidableEq, Repr

/-- The state carried by a step result. -/
def StepResult.app : StepResult → AppState
  | StepResult.Continue a => a
  | StepResult.Quit a => a

/-- One key dispatch of `run_app` (main.rs lines 105-125). `none` models a
panic: the `unwrap()` of an absent selection or an out-of-range index in
the Update/Char arm, or underflow inside `next`/`previous`. -/
def dispatch (app : AppState) (key : KeyCode) : Option StepResult :=
  match app.mode with
  | Mode.Update =>
      match key with
      | KeyCode.Char c =>
          match app.list.list_state.selected with
          | some i =>
              if h : i < app.list.items.length then
                some (StepResult.Continue
                  { app with list :=
                    { app.list with items := app.list.items.set i ((app.list.items[i]).push c) } })
              else none
          | none => none
      | KeyCode.Backspace => some (StepResult.Continue app)
      | KeyCode.Enter => some (StepResult.Continue { app with mode := Mode.Normal })
      | _ => some (StepResult.Continue app)
  | Mode.Add => some (StepResult.Continue app)
  | Mode.Normal =>
      match key with
      | KeyCode.Char c =>
          if c = 'q' then some (StepResult.Quit app)
          else if c = 'a' then some (StepResult.Continue { app with mode := Mode.Add })
          else if c = 'e' then some (StepResult.Continue { app with mode := Mode.Update })
          else some (StepResult.Continue app)
      | KeyCode.Left => some (StepResult.Continue { app with list := app.list.unselect })
      | KeyCode.Down => (app.list.next).map (fun l => StepResult.Continue { app with list := l })
      | KeyCode.Up => (app.list.previous).map (fun l => StepResult.Continue { app with list := l })
      | _ => some (StepResult.Continue app)
  | Mode.Delete => some (StepResult.Continue app)

/-- Folds `dispatch` over a sequence of key events, stopping at a quit
request and propagating a panic as `none`. -/
def runKeys (app : AppState) : List KeyCode → Option AppState
  | [] => some app
  | k :: ks =>
      match dispatch app k with
      | none => none
      | some (StepResult.Quit a) => some a
      | some (StepResult.Continue a) => runKeys a ks

/-- The poll-timeout computation of `run_app` (main.rs lines 99-101):
`tick_rate.checked_sub(last_tick.elapsed()).unwrap_or_else(zero)`.
Durations are embedded as natural numbers of nanoseconds. -/
def poll_timeout (tick_rate elapsed : Nat) : Nat :=
  (checked_sub tick_rate elapsed).getD 0

/-- The seed item list built in `main` (main.rs lines 215-218). -/
def seed_items : List String :=
  ["Be a gangster", "Finish a project", "Be a coder"]

/-- Subtracting one from a successor never underflows. -/
theorem checked_sub_succ_one (n : Nat) : checked_sub (n + 1) 1 = some n := by
  unfold checked_sub
  rw [if_pos (by omega : 1 ≤ n + 1)]
  rfl

/-- C1: for a non-empty list of length N, `next()` with no cursor selects
index 0 and with cursor i selects (i+1) mod N; `previous()` with no cursor
selects index 0 and with cursor i selects (i-1+N) mod N, wrapping to the
last index when at index 0. -/
theorem c1_next_previous_wraparound {α : Type} (items : List α) (i : Nat)
    (hN : 0 < items.length) (hi : i < items.length) :
    StatefulList.next (⟨⟨none⟩, items⟩ : StatefulList α) = some ⟨⟨some 0⟩, items⟩ ∧
    StatefulList.previous (⟨⟨none⟩, items⟩ : StatefulList α) = some ⟨⟨some 0⟩, items⟩ ∧
    StatefulList.next (⟨⟨some i⟩, items⟩ : StatefulList α)
      = some ⟨⟨some ((i + 1) % items.length)⟩, items⟩ ∧
    StatefulList.previous (⟨⟨some i⟩, items⟩ : StatefulList α)
      = some ⟨⟨some ((i + items.length - 1) % items.length)⟩, items⟩ := by
  have hcs : checked_sub items.length 1 = some (items.length - 1) := by
    unfold checked_sub
    have hN2 : 1 ≤ items.length := hN
    rw [if_pos hN2]
  have h1 : (i + 1) % items.length = if items.length - 1 ≤ i then 0 else i + 1 := by
    rcases Nat.lt_or_ge i (items.length - 1) with h | h
    · rw [if_neg (by omega), Nat.mod_eq_of_lt (by omega)]
    · rw [if_pos h]
      have h2 : i + 1 = items.length := by omega
      rw [h2, Nat.mod_self]
  refine ⟨rfl, rfl, ?_, ?_⟩
  · rw [h1]
    simp only [StatefulList.next, hcs, ListState.select]
  · rcases Nat.eq_zero_or_pos i with h | h
    · subst h
      have h3 : (0 + items.length - 1) % items.length = items.length - 1 := by
        rw [Nat.zero_add, Nat.mod_eq_of_lt (by omega)]
      rw [h3]
      simp [StatefulList.previous, hcs, ListState.select]
    · have h3 : (i + items.length - 1) % items.length = i - 1 := by
        have h4 : i + items.length - 1 = (i - 1) + items.length := by omega
        rw [h4, Nat.add_mod_right, Nat.mod_eq_of_lt (by omega)]
      rw [h3]
      simp only [StatefulList.previous, ListState.select]
      rw [if_neg (by omega)]

/-- Witness for C1 at the concrete list ["a", "b", "c"]: next from index 2
wraps to 0, previous from index 0 wraps to 2. -/
theorem c1_next_previous_wraparound_witness :
    StatefulList.next (⟨⟨some 2⟩, ["a", "b", "c"]⟩ : StatefulList String)
      = some ⟨⟨some 0⟩, ["a", "b", "c"]⟩ ∧
    StatefulList.previous (⟨⟨some 0⟩, ["a", "b", "c"]⟩ : StatefulList String)
      = some ⟨⟨some 2⟩, ["a", "b", "c"]⟩ :=
  ⟨(c1_next_previous_wraparound ["a", "b", "c"] 2 (by decide) (by decide)).2.2.1,
   (c1_next_previous_wraparound ["a", "b", "c"] 0 (by decide) (by decide)).2.2.2⟩

/-- C2: in Update mode with a cursor set on a valid index, a character key
appends exactly that character to the selected item's text and the mode
stays Update; Enter switches the mode to Normal and leaves every item's
text unchanged. -/
theorem c2_update_char_append_enter (items : List String) (i : Nat) (c : Char)
    (hi : i < items.length) :
    dispatch ⟨⟨⟨some i⟩, items⟩, Mode.Update⟩ (KeyCode.Char c)
      = some (StepResult.Continue
          ⟨⟨⟨some i⟩, items.set i ((items.get ⟨i, hi⟩).push c)⟩, Mode.Update⟩) ∧
    dispatch ⟨⟨⟨some i⟩, items⟩, Mode.Update⟩ KeyCode.Enter
      = some (StepResult.Continue ⟨⟨⟨some i⟩, items⟩, Mode.Normal⟩) := by
  refine ⟨?_, rfl⟩
  simp only [dispatch]
  rw [dif_pos hi]
  rfl

/-- Witness for C2 on a one-item list: pushing a character and pressing
Enter behave as stated. -/
theorem c2_update_char_append_enter_witness :
    dispatch ⟨⟨⟨some 0⟩, ["ab"]⟩, Mode.Update⟩ (KeyCode.Char 'z')
      = some (StepResult.Continue ⟨⟨⟨some 0⟩, ["abz"]⟩, Mode.Update⟩) ∧
    dispatch ⟨⟨⟨some 0⟩, ["ab"]⟩, Mode.Update⟩ KeyCode.Enter
      = some (StepResult.Continue ⟨⟨⟨some 0⟩, ["ab"]⟩, Mode.Normal⟩) := by
  have h := c2_update_char_append_enter ["ab"] 0 'z' (by decide)
  exact ⟨h.1, h.2⟩

/-- C3: in Normal mode, key a switches to Add mode changing nothing else,
key e with a cursor set switches to Update mode, and key q signals loop
termination with the state unchanged. -/
theorem c3_normal_mode_keys (ls : ListState) (items : List String) (i : Nat) :
    dispatch ⟨⟨ls, items⟩, Mode.Normal⟩ (KeyCode.Char 'a')
      = some (StepResult.Continue ⟨⟨ls, items⟩, Mode.Add⟩) ∧
    (ls.selected = some i →
      dispatch ⟨⟨ls, items⟩, Mode.Normal⟩ (KeyCode.Char 'e')
        = some (StepResult.Continue ⟨⟨ls, items⟩, Mode.Update⟩)) ∧
    dispatch ⟨⟨ls, items⟩, Mode.Normal⟩ (KeyCode.Char 'q')
      = some (StepResult.Quit ⟨⟨ls, items⟩, Mode.Normal⟩) :=
  ⟨rfl, fun _ => rfl, rfl⟩

/-- Witness for C3 on the seed list with index 0 selected. -/
theorem c3_normal_mode_keys_witness :
    dispatch ⟨⟨⟨some 0⟩, seed_items⟩, Mode.Normal⟩ (KeyCode.Char 'e')
      = some (StepResult.Continue ⟨⟨⟨some 0⟩, seed_items⟩, Mode.Update⟩) :=
  (c3_normal_mode_keys ⟨some 0⟩ seed_items 0).2.1 rfl

/-- C4: from the seed items in Normal mode, pressing Down twice (selecting
index 1), then e, then the character !, then Enter, yields item 1 equal to
"Finish a project!", mode Normal, and items 0 and 2 unchanged. -/
theorem c4_round_trip :
    runKeys (AppState.new seed_items)
        [KeyCode.Down, KeyCode.Down, KeyCode.Char 'e', KeyCode.Char '!', KeyCode.Enter]
      = some ⟨⟨⟨some 1⟩, ["Be a gangster", "Finish a project!", "Be a coder"]⟩, Mode.Normal⟩ := by
  rfl

/-- C5 counterexample: there is no explicit emptiness guard in `next` or
`previous`. On the empty list with cursor 0, `next()` does evaluate the
length-minus-one wrap computation and underflows (the panic, `none`), so
the error branch is reachable; and on the empty list with no cursor,
`next()` does not fail at all but selects index 0, an out-of-range index
for the empty sequence. -/
theorem c5_counterexample :
    StatefulList.next (⟨⟨some 0⟩, []⟩ : StatefulList String) = none ∧
    StatefulList.next (⟨⟨none⟩, []⟩ : StatefulList String) = some ⟨⟨some 0⟩, []⟩ :=
  ⟨rfl, rfl⟩

/-- C5 (amended): on an empty item sequence the operations are not
guarded. With a cursor set, `next()` always reaches the underflowing
length-minus-one wrap computation (a panic), as does `previous()` when the
cursor is at 0; with no cursor set, both operations succeed and select
index 0, which is out of range for the empty sequence. -/
theorem c5_empty_list_unguarded (i : Nat) :
    StatefulList.next (⟨⟨some i⟩, []⟩ : StatefulList String) = none ∧
    StatefulList.previous (⟨⟨some 0⟩, []⟩ : StatefulList String) = none ∧
    StatefulList.next (⟨⟨none⟩, []⟩ : StatefulList String) = some ⟨⟨some 0⟩, []⟩ ∧
    StatefulList.previous (⟨⟨none⟩, []⟩ : StatefulList String) = some ⟨⟨some 0⟩, []⟩ :=
  ⟨rfl, rfl, rfl, rfl⟩

/-- C6: in Normal mode, key e switches to Update mode unconditionally,
also when no cursor is set; and in Update mode with no cursor set, any
character key reaches the unwrap of the absent selection, a panic. -/
theorem c6_update_without_selection_panics (items : List String) (c : Char) :
    dispatch ⟨⟨⟨none⟩, items⟩, Mode.Normal⟩ (KeyCode.Char 'e')
      = some (StepResult.Continue ⟨⟨⟨none⟩, items⟩, Mode.Update⟩) ∧
    dispatch ⟨⟨⟨none⟩, items⟩, Mode.Update⟩ (KeyCode.Char c) = none :=
  ⟨rfl, rfl⟩

/-- C7: `unselect()` always clears the cursor, is idempotent, and applied
to an already-unselected list leaves the state identical. -/
theorem c7_unselect_idempotent {α : Type} (s : StatefulList α) :
    (s.unselect).list_state.selected = none ∧
    (s.unselect).unselect = s.unselect ∧
    (s.list_state.selected = none → s.unselect = s) := by
  obtain ⟨⟨sel⟩, items⟩ := s
  refine ⟨rfl, rfl, fun h => ?_⟩
  cases sel with
  | none => rfl
  | some a => exact Option.noConfusion h

/-- Witness for C7: unselecting an already-unselected list is the
identity on a concrete list. -/
theorem c7_unselect_idempotent_witness :
    (⟨⟨none⟩, ["x"]⟩ : StatefulList String).unselect = ⟨⟨none⟩, ["x"]⟩ :=
  (c7_unselect_idempotent (⟨⟨none⟩, ["x"]⟩ : StatefulList String)).2.2 rfl

/-- C8: `next`, `previous` and `unselect` mutate only the cursor; the item
sequence (hence its length, order and every item's text) is unchanged by
each of these operations. -/
theorem c8_operations_preserve_items {α : Type} (s t : StatefulList α) :
    (s.next = some t → t.items = s.items) ∧
    (s.previous = some t → t.items = s.items) ∧
    (s.unselect).items = s.items := by
  obtain ⟨⟨sel⟩, items⟩ := s
  refine ⟨?_, ?_, rfl⟩
  · intro h
    cases sel with
    | none =>
        injection h with h2
        subst h2
        rfl
    | some i =>
        cases items with
        | nil => exact Option.noConfusion h
        | cons a as =>
            simp only [StatefulList.next, List.length_cons, checked_sub_succ_one,
              ListState.select, Option.some.injEq] at h
            subst h
            rfl
  · intro h
    cases sel with
    | none =>
        injection h with h2
        subst h2
        rfl
    | some i =>
        cases i with
        | zero =>
            cases items with
            | nil => exact Option.noConfusion h
            | cons a as =>
                simp only [StatefulList.previous, List.length_cons, checked_sub_succ_one,
                  ListState.select, eq_self_iff_true, if_true, Option.some.injEq] at h
                subst h
                rfl
        | succ j =>
            injection h with h2
            subst h2
            rfl

/-- Witness for C8: advancing the cursor on a concrete two-item list
leaves the items unchanged. -/
theorem c8_operations_preserve_items_witness :
    (⟨⟨some 0⟩, ["x", "y"]⟩ : StatefulList String).items
      = (⟨⟨none⟩, ["x", "y"]⟩ : StatefulList String).items :=
  (c8_operations_preserve_items (⟨⟨none⟩, ["x", "y"]⟩ : StatefulList String)
    ⟨⟨some 0⟩, ["x", "y"]⟩).1 rfl

/-- C9: the poll timeout equals the tick interval minus the elapsed time
clamped to zero, and never exceeds the tick interval, so the poll never
blocks longer than the configured tick interval. -/
theorem c9_poll_timeout_clamped (tick_rate elapsed : Nat) :
    poll_timeout tick_rate elapsed
      = (if elapsed ≤ tick_rate then tick_rate - elapsed else 0) ∧
    poll_timeout tick_rate elapsed ≤ tick_rate := by
  unfold poll_timeout checked_sub
  rcases le_or_lt elapsed tick_rate with h | h
  · rw [if_pos h, if_pos h]
    exact ⟨rfl, Nat.sub_le _ _⟩
  · rw [if_neg (not_le.mpr h), if_neg (not_le.mpr h)]
    exact ⟨rfl, Nat.zero_le _⟩

/-- A single key dispatch never produces Delete mode from a non-Delete
mode: no match arm of `run_app` assigns `Mode::Delete`. -/
theorem dispatch_not_delete (app : AppState) (k : KeyCode) (r : StepResult)
    (hm : app.mode ≠ Mode.Delete) (hd : dispatch app k = some r) :
    r.app.mode ≠ Mode.Delete := by
  obtain ⟨⟨⟨sel⟩, items⟩, m⟩ := app
  cases m with
  | Delete => exact absurd rfl hm
  | Add =>
      cases k <;>
        · injection hd with h2
          subst h2
          exact fun hc => Mode.noConfusion hc
  | Update =>
      cases k with
      | Char c =>
          cases sel with
          | none =>
              simp only [dispatch] at hd
              exact Option.noConfusion hd
          | some i =>
              by_cases h2 : i < items.length
              · have he : dispatch ⟨⟨⟨some i⟩, items⟩, Mode.Update⟩ (KeyCode.Char c)
                    = some (StepResult.Continue ⟨⟨⟨some i⟩,
                        items.set i ((items.get ⟨i, h2⟩).push c)⟩, Mode.Update⟩) := by
                  simp only [dispatch]
                  rw [dif_pos h2]
                  rfl
                rw [he] at hd
                injection hd with h3
                subst h3
                exact fun hc => Mode.noConfusion hc
              · have he : dispatch ⟨⟨⟨some i⟩, items⟩, Mode.Update⟩ (KeyCode.Char c)
                    = none := by
                  simp only [dispatch]
                  rw [dif_neg h2]
                rw [he] at hd
                exact Option.noConfusion hd
      | Backspace =>
          injection hd with h2
          subst h2
          exact fun hc => Mode.noConfusion hc
      | Enter =>
          injection hd with h2
          subst h2
          exact fun hc => Mode.noConfusion hc
      | Left =>
          injection hd with h2
          subst h2
          exact fun hc => Mode.noConfusion hc
      | Down =>
          injection hd with h2
          subst h2
          exact fun hc => Mode.noConfusion hc
      | Up =>
          injection hd with h2
          subst h2
          exact fun hc => Mode.noConfusion hc
      | Other =>
          injection hd with h2
          subst h2
          exact fun hc => Mode.noConfusion hc
  | Normal =>
      cases k with
      | Char c =>
          simp only [dispatch] at hd
          split at hd
          · injection hd with h2
            subst h2
            exact fun hc => Mode.noConfusion hc
          · split at hd
            · injection hd with h2
              subst h2
              exact fun hc => Mode.noConfusion hc
            · split at hd
              · injection hd with h2
                subst h2
                exact fun hc => Mode.noConfusion hc
              · injection hd with h2
                subst h2
                exact fun hc => Mode.noConfusion hc
      | Left =>
          injection hd with h2
          subst h2
          exact fun hc => Mode.noConfusion hc
      | Down =>
          simp only [dispatch] at hd
          rcases hn : StatefulList.next (⟨⟨sel⟩, items⟩ : StatefulList String) with _ | l
          · rw [hn] at hd
            exact Option.noConfusion hd
          · rw [hn] at hd
            injection hd with h2
            subst h2
            exact fun hc => Mode.noConfusion hc
      | Up =>
          simp only [dispatch] at hd
          rcases hn : StatefulList.previous (⟨⟨sel⟩, items⟩ : StatefulList String) with _ | l
          · rw [hn] at hd
            exact Option.noConfusion hd
          · rw [hn] at hd
            injection hd with h2
            subst h2
            exact fun hc => Mode.noConfusion hc
      | Backspace =>
          injection hd with h2
          subst h2
          exact fun hc => Mode.noConfusion hc
      | Enter =>
          injection hd with h2
          subst h2
          exact fun hc => Mode.noConfusion hc
      | Other =>
          injection hd with h2
          subst h2
          exact fun hc => Mode.noConfusion hc

/-- C10: Delete mode is unreachable. Starting from any state whose mode is
not Delete (in particular the initial Normal mode), no sequence of key
events ever leads to a state in Delete mode. -/
theorem c10_delete_mode_unreachable (app : AppState) (keys : List KeyCode)
    (app2 : AppState) (h0 : app.mode ≠ Mode.Delete)
    (hrun : runKeys app keys = some app2) :
    app2.mode ≠ Mode.Delete := by
  induction keys generalizing app with
  | nil =>
      injection hrun with h
      subst h
      exact h0
  | cons k ks ih =>
      unfold runKeys at hrun
      rcases hd : dispatch app k with _ | r
      · rw [hd] at hrun
        exact Option.noConfusion hrun
      · rw [hd] at hrun
        cases r with
        | Quit a =>
            injection hrun with h
            subst h
            exact dispatch_not_delete app k (StepResult.Quit a) h0 hd
        | Continue a =>
            exact ih a (dispatch_not_delete app k (StepResult.Continue a) h0 hd) hrun

/-- Witness for C10: from the initial seed state, pressing a then any
character never yields Delete mode. -/
theorem c10_delete_mode_unreachable_witness :
    (⟨⟨⟨none⟩, seed_items⟩, Mode.Add⟩ : AppState).mode ≠ Mode.Delete :=
  c10_delete_mode_unreachable (AppState.new seed_items) [KeyCode.Char 'a', KeyCode.Char 'x']
    ⟨⟨⟨none⟩, seed_items⟩, Mode.Add⟩ (by decide) rfl
